import Mathlib

/-!
Verification development for the HSI biopsy sample index
(`src/dataset.py` of the hsi-biopsy repository).

Python strings are modelled as `List Char` (`Str`); machine behaviour of
`str.replace`, `str.strip`, `str.startswith`, the per-file regex match of
`_find_cube_samples`, the pandas-backed metadata lookup, the sample list,
and the `combined_id → index` dictionary are translated operation by
operation.  A raised Python exception is modelled as `Except.error` and a
`None` return as `Option.none`.
-/

abbrev Str := List Char

/-- Characters stripped by Python `str.strip()` (ASCII whitespace). -/
def pySpace (c : Char) : Bool :=
  c == ' ' || c == '\t' || c == '\n' || c == '\r' ||
  c == Char.ofNat 11 || c == Char.ofNat 12

/-- Python `s.replace("S.", "S")`: left-to-right, non-overlapping; the
replacement text is not rescanned. -/
def replaceSdot : Str → Str
  | [] => []
  | [c] => [c]
  | a :: b :: rest =>
    if a = 'S' ∧ b = '.' then 'S' :: replaceSdot rest
    else a :: replaceSdot (b :: rest)

/-- Does the string contain the two-character pattern `S.`? -/
def hasSdot : Str → Bool
  | [] => false
  | [_] => false
  | a :: b :: rest =>
    if a = 'S' ∧ b = '.' then true else hasSdot (b :: rest)

/-- Python `s.replace(" ", "")`: removes exactly the space character. -/
def removeSpaces (s : Str) : Str := s.filter (fun c => c != ' ')

/-- Python `s.strip()`: drop leading and trailing whitespace. -/
def pyStrip (s : Str) : Str :=
  ((s.dropWhile pySpace).reverse.dropWhile pySpace).reverse

/-- `HSIDataset._normalize_id_csv` on a string argument:
`sample_id.replace("S.", "S").replace(" ", "").strip()`. -/
def normalizeStr (s : Str) : Str := pyStrip (removeSpaces (replaceSdot s))

/-- A Python value that is either a string or some non-string object
(NaN, a number, ...), as fed to `_normalize_id_csv`. -/
inductive PyVal where
  | str (s : Str)
  | nonStr (n : Nat)
deriving DecidableEq

/-- `HSIDataset._normalize_id_csv`: strings are normalized, any other
value is returned unchanged. -/
def normalizeIdCsv : PyVal → PyVal
  | PyVal.str s => PyVal.str (normalizeStr s)
  | PyVal.nonStr n => PyVal.nonStr n

/-- `HSIDataset._extract_patient_number`: drop a leading `S` if present. -/
def extractPatientNumber (s : Str) : Str :=
  match s with
  | 'S' :: t => t
  | _ => s

/-- Python `s.startswith(p)` on list-modelled strings (arguments:
the string, then the candidate leading pattern). -/
def listStartsWith : Str → Str → Bool
  | _, [] => true
  | [], _ :: _ => false
  | a :: as, b :: bs => a == b && listStartsWith as bs

/-- Remove a literal leading pattern, or fail. -/
def stripPre : Str → Str → Option Str
  | [], s => some s
  | _ :: _, [] => none
  | p :: ps, c :: cs => if c == p then stripPre ps cs else none

/-- Tail of the filename regex: the optional `_BIS` marker followed by
the literal `.mat` and end of string. -/
def parseTail (raw : Str) (fovOpt : Option Str) (rest : Str) :
    Option (Str × Option Str) :=
  match stripPre ("_BIS").toList rest with
  | some rb => if rb = (".mat").toList then some (raw, fovOpt) else none
  | none => if rest = (".mat").toList then some (raw, fovOpt) else none

/-- The optional `(?:_FOV(\d+))?` group: consumed only when `_FOV` is
followed by at least one digit, exactly as the regex engine backtracks. -/
def parseAfterId (raw : Str) (rest : Str) : Option (Str × Option Str) :=
  match stripPre ("_FOV").toList rest with
  | some rf =>
    if (rf.span Char.isDigit).1 = [] then parseTail raw none rest
    else parseTail raw (some (rf.span Char.isDigit).1) (rf.span Char.isDigit).2
  | none => parseTail raw none rest

/-- The anchored regex of `_find_cube_samples`:
`^HyperProbe1\.1_Biopsy_(S\d+\.\d+)(?:_FOV(\d+))?(?:_BIS)?\.mat$`.
Returns the captured raw id (group 1) and the FOV digits (group 2).
The regex needs no backtracking beyond `parseAfterId`: each greedy `\d+`
is followed by a non-digit, and each optional group starts with `_`
where the only alternative continuations start with `_BIS` or `.mat`. -/
def parseFilename (s : Str) : Option (Str × Option Str) :=
  match stripPre ("HyperProbe1.1_Biopsy_S").toList s with
  | none => none
  | some r1 =>
    if (r1.span Char.isDigit).1 = [] then none else
    match stripPre ['.'] (r1.span Char.isDigit).2 with
    | none => none
    | some r3 =>
      if (r3.span Char.isDigit).1 = [] then none else
      parseAfterId
        ('S' :: (r1.span Char.isDigit).1 ++ '.' :: (r3.span Char.isDigit).1)
        (r3.span Char.isDigit).2

/-- `os.path.join` for the paths appearing here. -/
def joinPath (dir name : Str) : Str :=
  if dir = [] then name
  else if dir.getLast? = some '/' then dir ++ name
  else dir ++ '/' :: name

/-- One clinical metadata record (the row payload attached to a sample;
modelled as the attribute/value pairs of the CSV row). -/
abbrev MetaRecord := List (Str × Str)

/-- The loaded metadata table: `id` column value and record, row by row.
A missing or unparseable CSV file, or a CSV without an `id` column,
degrades to the empty table (`__init__` catches the exception and the
missing-column case, leaving every lookup absent). -/
abbrev MetaTable := List (Str × MetaRecord)

/-- Lookup through the `normalized_id` index built in `__init__`:
membership of the normalized filename id in the index, and `.loc` taking
the first row when the index is not unique. -/
def mdLookup (md : MetaTable) (nid : Str) : Option MetaRecord :=
  (md.find? (fun r => normalizeStr r.1 == nid)).map (fun r => r.2)

/-- One entry of `cube_samples` as assembled in `_find_cube_samples`. -/
structure Sample where
  combined_id : Str
  patient_id : Str
  fov : Str
  file_path : Str
  metadata : MetaRecord
deriving DecidableEq

/-- The dict appended for one matched file. -/
def mkSample (dir f raw : Str) (fovOpt : Option Str) (r : MetaRecord) : Sample :=
  let fovKey := fovOpt.getD ['1']
  let nid := pyStrip raw
  { combined_id := extractPatientNumber nid ++ '_' :: fovKey
    patient_id := nid
    fov := fovKey
    file_path := joinPath dir f
    metadata := r }

/-- `HSIDataset._find_cube_samples` over a directory listing: the sample
list in listing order and the list of files warned about (matched the
regex but had no metadata row).  Files not matching the regex are
skipped without a warning. -/
def findCubeSamples (dir : Str) (files : List Str) (md : MetaTable) :
    List Sample × List Str :=
  match files with
  | [] => ([], [])
  | f :: rest =>
    let acc := findCubeSamples dir rest md
    match parseFilename f with
    | none => acc
    | some (raw, fovOpt) =>
      match mdLookup md (pyStrip raw) with
      | some r => (mkSample dir f raw fovOpt r :: acc.1, acc.2)
      | none => (acc.1, f :: acc.2)

/-- Python string `<` (code-point lexicographic). -/
def lexLt : Str → Str → Bool
  | _, [] => false
  | [], _ :: _ => true
  | a :: as, b :: bs =>
    if a.toNat < b.toNat then true
    else if b.toNat < a.toNat then false
    else lexLt as bs

/-- Stable insertion used to model `list.sort(key=...)`: an element is
placed before the first strictly greater entry, after equal ones seen
so far in the fold. -/
def insertSorted (x : Sample) : List Sample → List Sample
  | [] => [x]
  | y :: ys =>
    if lexLt y.combined_id x.combined_id then y :: insertSorted x ys
    else x :: y :: ys

/-- `self.cube_samples.sort(key=lambda x: x["combined_id"])` (a stable
sort, as Python's). -/
def sortSamples (l : List Sample) : List Sample := l.foldr insertSorted []

/-- The state an `HSIDataset` holds after `__init__` (the sorted sample
list; `sample_map` is recomputed by `sampleMapLookup`).  `warnings`
records the missing-metadata warnings printed during the scan. -/
structure HSIDataset where
  cube_samples : List Sample
  warnings : List Str
deriving DecidableEq

/-- `HSIDataset.__init__`: `listing` is `none` when
`os.path.isdir(hsi_data_dir)` fails (the scan returns `[]`), otherwise
the `os.listdir` result. -/
def HSIDataset.build (dir : Str) (listing : Option (List Str)) (md : MetaTable) :
    HSIDataset :=
  match listing with
  | none => { cube_samples := [], warnings := [] }
  | some files =>
    let fw := findCubeSamples dir files md
    { cube_samples := sortSamples fw.1, warnings := fw.2 }

/-- Index of the last entry with the given `combined_id`, counting from
`k`: the value `{s["combined_id"]: i for i, s in enumerate(...)}[cid]`,
where a later duplicate key overwrites an earlier one. -/
def lastIdxFrom (l : List Sample) (cid : Str) (k : Nat) : Option Nat :=
  match l with
  | [] => none
  | s :: rest =>
    match lastIdxFrom rest cid (k + 1) with
    | some j => some j
    | none => if s.combined_id == cid then some k else none

/-- `self.sample_map.get(combined_id)` behaviour: `some i` iff
`combined_id in self.sample_map` with value `i`. -/
def sampleMapLookup (l : List Sample) (cid : Str) : Option Nat :=
  lastIdxFrom l cid 0

/-- `HSIDataset.__getitem__`: raises `IndexError` (modelled as
`Except.error ()`) outside `[0, len)`, otherwise returns the sample
record (the lazily loaded cube payload is a function of `file_path` and
is modelled separately by `loadHsiCube`). -/
def getItem (ds : HSIDataset) (idx : Int) : Except Unit Sample :=
  if idx < 0 ∨ (ds.cube_samples.length : Int) ≤ idx then Except.error ()
  else
    match ds.cube_samples[idx.toNat]? with
    | some s => Except.ok s
    | none => Except.error ()

/-- `HSIDataset.get_sample_by_combined_id`: map lookup then
`__getitem__` (the stored index is always in range, so the getitem
succeeds); unknown ids return `None`. -/
def getSampleByCombinedId (ds : HSIDataset) (cid : Str) : Option Sample :=
  (sampleMapLookup ds.cube_samples cid).bind (fun i => ds.cube_samples[i]?)

/-- `HSIDataset.get_samples_by_patient_id`: normalize, drop a leading
`S`, and keep the samples whose `combined_id` starts with
`patient_number + "_"`, in stored order. -/
def getSamplesByPatientId (ds : HSIDataset) (pid : Str) : List Sample :=
  let pn := extractPatientNumber (normalizeStr pid)
  ds.cube_samples.filter (fun s => listStartsWith s.combined_id (pn ++ ['_']))

/-- `HSIDataset.get_sample_by_patient_and_fov`. -/
def getSampleByPatientAndFov (ds : HSIDataset) (pid fov : Str) : Option Sample :=
  getSampleByCombinedId ds (extractPatientNumber (normalizeStr pid) ++ '_' :: fov)

/-- A multi-dimensional array inside a cube file (only its shape and an
identifying payload matter to the index-level claims). -/
structure NDArr where
  shape : List Nat
  payload : Nat
deriving DecidableEq

/-- A cube file on disk: an HDF5-readable container with named datasets,
or anything `h5py.File` fails to open. -/
inductive CubeFile where
  | hdf5 (fields : List (Str × NDArr))
  | corrupt
deriving DecidableEq

abbrev FileSystem := List (Str × CubeFile)

def fsFind (fs : FileSystem) (path : Str) : Option CubeFile :=
  (fs.find? (fun p => p.1 == path)).map (fun p => p.2)

/-- `HSIDataset._load_hsi_cube`: open the file with `h5py.File`, read
the fixed dataset name `"Ref_hyper"`, and return `None` on any
exception (missing file, unreadable container, or absent field). -/
def loadHsiCube (fs : FileSystem) (path : Str) : Option NDArr :=
  match fsFind fs path with
  | some (CubeFile.hdf5 fields) =>
    (fields.find? (fun q => q.1 == ("Ref_hyper").toList)).map (fun q => q.2)
  | _ => none

/-- Modelled from the spec (no such code exists in the repository):
the legacy-container field heuristic of spec §4.5 — ignore
double-underscore internal names, prefer a fixed list of common aliases,
otherwise take the highest-dimensionality array, ties broken by largest
element count. -/
def specPreferredNames : List Str :=
  [("cube").toList, ("data").toList, ("hsi").toList,
   ("image").toList, ("ref").toList, ("hypercube").toList]

/-- Modelled from the spec (no such code exists in the repository):
locate the array field of a legacy container per spec §4.5. -/
def specLocateLegacy (fields : List (Str × NDArr)) : Option NDArr :=
  let cand := fields.filter (fun q => !(listStartsWith q.1 ['_', '_']))
  match cand.find? (fun q => specPreferredNames.contains q.1) with
  | some q => some q.2
  | none =>
    cand.foldl
      (fun best q =>
        match best with
        | none => some q.2
        | some b =>
          if b.shape.length < q.2.shape.length then some q.2
          else if b.shape.length = q.2.shape.length ∧ b.shape.prod < q.2.shape.prod
          then some q.2
          else some b)
      none

example : normalizeStr ("S.1.2").toList = ("S1.2").toList := by decide
example : normalizeStr (" S1.2 ").toList = ("S1.2").toList := by decide
example : normalizeStr ("SS..").toList = ("SS.").toList := by decide
example :
    parseFilename ("HyperProbe1.1_Biopsy_S1.2_FOV12_BIS.mat").toList
      = some (("S1.2").toList, some ("12").toList) := by decide
example : parseFilename ("HyperProbe1.1_Biopsy_S1.2.mat").toList
      = some (("S1.2").toList, none) := by decide
example : parseFilename ("HyperProbe1.1_Biopsy_S1.2_FOV_BIS.mat").toList
      = none := by decide
example : parseFilename ("HyperProbe1.1_Biopsy_S1.2.matX").toList = none := by
  decide

/-! Concrete inputs used by witnesses and counterexamples. -/

/-- The metadata table of spec §8. -/
def demoMd : MetaTable :=
  [(("S1.2").toList, [(("type").toList, ("Glioma").toList)]),
   (("S.3.4").toList, [(("type").toList, ("Meningioma").toList)])]

/-- The directory listing of spec §8. -/
def demoFiles : List Str :=
  [("HyperProbe1.1_Biopsy_S1.2.mat").toList,
   ("HyperProbe1.1_Biopsy_S1.2_FOV2.mat").toList,
   ("HyperProbe1.1_Biopsy_S9.9.mat").toList]

def demoDs : HSIDataset := HSIDataset.build (("d").toList) (some demoFiles) demoMd

/-- Two files colliding on `combined_id` `1.2_1`: the base cube and its
`_BIS` duplicate. -/
def bisFiles : List Str :=
  [("HyperProbe1.1_Biopsy_S1.2.mat").toList,
   ("HyperProbe1.1_Biopsy_S1.2_BIS.mat").toList]

def bisMd : MetaTable :=
  [(("S1.2").toList, [(("type").toList, ("Glioma").toList)])]

def bisDs : HSIDataset := HSIDataset.build (("d").toList) (some bisFiles) bisMd

def bisRec : MetaRecord := [(("type").toList, ("Glioma").toList)]

def bisS0 : Sample :=
  { combined_id := ("1.2_1").toList
    patient_id := ("S1.2").toList
    fov := ['1']
    file_path := ("d/HyperProbe1.1_Biopsy_S1.2.mat").toList
    metadata := bisRec }

def bisS1 : Sample :=
  { combined_id := ("1.2_1").toList
    patient_id := ("S1.2").toList
    fov := ['1']
    file_path := ("d/HyperProbe1.1_Biopsy_S1.2_BIS.mat").toList
    metadata := bisRec }

/-- Patient `S1.2` with FOVs 2 and 10 (multi-digit FOV ordering). -/
def fovFiles : List Str :=
  [("HyperProbe1.1_Biopsy_S1.2_FOV2.mat").toList,
   ("HyperProbe1.1_Biopsy_S1.2_FOV10.mat").toList]

def fovDs : HSIDataset := HSIDataset.build (("d").toList) (some fovFiles) bisMd

/-- Digits-to-number, for stating integer ordering of FOV strings. -/
def natOfDigits (s : Str) : Nat :=
  s.foldl (fun n c => 10 * n + (c.toNat - ('0').toNat)) 0

example : demoDs.cube_samples.map (fun s => s.combined_id)
    = [("1.2_1").toList, ("1.2_2").toList] := by decide
example : demoDs.warnings = [("HyperProbe1.1_Biopsy_S9.9.mat").toList] := by
  decide
example : bisDs.cube_samples = [bisS0, bisS1] := by decide
example : sampleMapLookup bisDs.cube_samples (("1.2_1").toList) = some 1 := by
  decide
example : fovDs.cube_samples.map (fun s => s.fov)
    = [("10").toList, ("2").toList] := by decide
example : (getSamplesByPatientId fovDs (("S1.2").toList)).map (fun s => s.fov)
    = [("10").toList, ("2").toList] := by decide
example : getSampleByPatientAndFov bisDs (("S1.2").toList) ['1']
    = some bisS1 := by decide

/-! String-level lemmas. -/

theorem dropWhile_dropWhile (p : Char → Bool) (l : Str) :
    (l.dropWhile p).dropWhile p = l.dropWhile p := by
  induction l with
  | nil => rfl
  | cons a l ih =>
    cases h : p a <;> simp [List.dropWhile_cons, h, ih]

theorem dropWhile_eq_self_left {p : Char → Bool} {B X : Str}
    (h : (B ++ X).dropWhile p = B ++ X) : B.dropWhile p = B := by
  cases B with
  | nil => rfl
  | cons b t =>
    rw [List.cons_append, List.dropWhile_cons] at h
    cases hb : p b with
    | true =>
      rw [if_pos (by simp [hb])] at h
      have hlen := congrArg List.length h
      have hle := (List.dropWhile_suffix (l := t ++ X) p).length_le
      simp [List.length_append] at hlen hle
      omega
    | false =>
      rw [List.dropWhile_cons, if_neg (by simp [hb])]

theorem pyStrip_decomp (l : Str) :
    ∃ X, l.dropWhile pySpace = pyStrip l ++ X := by
  refine ⟨((l.dropWhile pySpace).reverse.takeWhile pySpace).reverse, ?_⟩
  conv_lhs => rw [← List.reverse_reverse (l.dropWhile pySpace),
    ← List.takeWhile_append_dropWhile (p := pySpace) (l := (l.dropWhile pySpace).reverse)]
  rw [List.reverse_append]
  rfl

theorem pyStrip_pyStrip (l : Str) : pyStrip (pyStrip l) = pyStrip l := by
  obtain ⟨X, hX⟩ := pyStrip_decomp l
  have hA : (l.dropWhile pySpace).dropWhile pySpace = l.dropWhile pySpace :=
    dropWhile_dropWhile pySpace l
  have h1 : (pyStrip l).dropWhile pySpace = pyStrip l := by
    apply dropWhile_eq_self_left (X := X)
    rw [← hX]; exact hA
  have h2 : (pyStrip l).reverse.dropWhile pySpace = (pyStrip l).reverse := by
    unfold pyStrip
    rw [List.reverse_reverse]
    exact dropWhile_dropWhile pySpace (l.dropWhile pySpace).reverse
  show (((pyStrip l).dropWhile pySpace).reverse.dropWhile pySpace).reverse = pyStrip l
  rw [h1, h2, List.reverse_reverse]

theorem mem_of_mem_dropWhile {p : Char → Bool} {c : Char} {l : Str}
    (h : c ∈ l.dropWhile p) : c ∈ l := by
  have := List.takeWhile_append_dropWhile (p := p) (l := l)
  rw [← this]
  exact List.mem_append_right _ h

theorem mem_of_mem_pyStrip {c : Char} {l : Str} (h : c ∈ pyStrip l) : c ∈ l := by
  unfold pyStrip at h
  rw [List.mem_reverse] at h
  have h2 := mem_of_mem_dropWhile h
  rw [List.mem_reverse] at h2
  exact mem_of_mem_dropWhile h2

theorem normalizeStr_no_space (s : Str) {c : Char} (hc : c ∈ normalizeStr s) :
    (c != ' ') = true := by
  unfold normalizeStr at hc
  have h1 := mem_of_mem_pyStrip hc
  unfold removeSpaces at h1
  simpa using List.of_mem_filter h1

theorem dropWhile_eq_self_of_all {p : Char → Bool} {l : Str}
    (h : ∀ c ∈ l, p c = false) : l.dropWhile p = l := by
  cases l with
  | nil => rfl
  | cons a t =>
    rw [List.dropWhile_cons, if_neg]
    simp [h a (by simp)]

theorem pyStrip_eq_self_of_all {l : Str}
    (h : ∀ c ∈ l, pySpace c = false) : pyStrip l = l := by
  unfold pyStrip
  rw [dropWhile_eq_self_of_all h,
    dropWhile_eq_self_of_all (fun c hc => h c (List.mem_reverse.mp hc)),
    List.reverse_reverse]

theorem replaceSdot_eq_self : ∀ {l : Str}, hasSdot l = false → replaceSdot l = l := by
  intro l
  induction l using replaceSdot.induct with
  | case1 => intro _; rfl
  | case2 c => intro _; rfl
  | case3 a b rest hab ih =>
    intro h
    rw [hasSdot, if_pos hab] at h
    exact absurd h (by simp)
  | case4 a b rest hab ih =>
    intro h
    rw [hasSdot, if_neg hab] at h
    rw [replaceSdot, if_neg hab, ih h]

theorem hasSdot_of_no_S : ∀ {l : Str}, (∀ c ∈ l, c ≠ 'S') → hasSdot l = false := by
  intro l
  induction l using hasSdot.induct with
  | case1 => intro _; rfl
  | case2 c => intro _; rfl
  | case3 a b rest hab =>
    intro h
    exact absurd hab.1 (h a (by simp))
  | case4 a b rest hab ih =>
    intro h
    rw [hasSdot, if_neg hab]
    exact ih (fun d hd => h d (List.mem_cons_of_mem a hd))

theorem removeSpaces_eq_self {l : Str} (h : ∀ c ∈ l, (c != ' ') = true) :
    removeSpaces l = l := by
  unfold removeSpaces
  exact List.filter_eq_self.mpr h

theorem normalizeStr_eq_self_of {l : Str}
    (h1 : ∀ c ∈ l, pySpace c = false) (h2 : hasSdot l = false) :
    normalizeStr l = l := by
  unfold normalizeStr
  rw [replaceSdot_eq_self h2]
  rw [removeSpaces_eq_self (fun c hc => ?_), pyStrip_eq_self_of_all h1]
  have hp := h1 c hc
  by_contra hne
  simp at hne
  subst hne
  simp [pySpace] at hp

/-- Claim C2, counterexample: the normalizer is not idempotent.  Python's
`"SS..".replace("S.", "S")` yields `"SS."`, which a second application
turns into `"SS"`. -/
theorem c2_normalize_not_idempotent :
    normalizeIdCsv (normalizeIdCsv (PyVal.str ("SS..").toList))
      ≠ normalizeIdCsv (PyVal.str ("SS..").toList) := by decide

/-- Claim C2 (amended): the normalizer is idempotent on every string whose
normalized form contains no further occurrence of `S.` (replacement can
re-create the pattern, e.g. from `SS..` or `S .`); non-string inputs are
returned unchanged. -/
theorem c2_normalize_idempotent_amended :
    (∀ s : Str, replaceSdot (normalizeStr s) = normalizeStr s →
      normalizeIdCsv (normalizeIdCsv (PyVal.str s)) = normalizeIdCsv (PyVal.str s))
    ∧ (∀ n : Nat, normalizeIdCsv (PyVal.nonStr n) = PyVal.nonStr n) := by
  constructor
  · intro s h
    show PyVal.str (normalizeStr (normalizeStr s)) = PyVal.str (normalizeStr s)
    congr 1
    conv_lhs => rw [normalizeStr, h]
    rw [removeSpaces_eq_self (fun c hc => normalizeStr_no_space s hc)]
    exact pyStrip_pyStrip (removeSpaces (replaceSdot s))
  · intro n; rfl

/-- Claim C2, witness for the amended theorem at `"S1.2"` and a non-string. -/
theorem c2_normalize_idempotent_witness :
    normalizeIdCsv (normalizeIdCsv (PyVal.str ("S1.2").toList))
        = normalizeIdCsv (PyVal.str ("S1.2").toList)
    ∧ normalizeIdCsv (PyVal.nonStr 7) = PyVal.nonStr 7 :=
  ⟨c2_normalize_idempotent_amended.1 (("S1.2").toList) (by decide),
   c2_normalize_idempotent_amended.2 7⟩

/-- Claim C3, counterexample: `normalize` does not remove all whitespace — only
the space character `' '` is removed (`.replace(" ", "")`), so an interior
tab survives normalization. -/
theorem c3_whitespace_not_removed :
    '\t' ∈ normalizeStr ['S', '1', '\t', '.', '2']
    ∧ pySpace '\t' = true
    ∧ normalizeStr ['S', '1', '\t', '.', '2'] = ['S', '1', '\t', '.', '2'] := by
  refine ⟨?_, by decide, by decide⟩
  decide

/-- Claim C3 (amended): for every string, normalization leaves no space
character `' '` in the result (interior non-space whitespace such as a
tab is kept); the two example normalizations of the spec hold. -/
theorem c3_normalize_spaces_amended :
    (∀ s : Str, (normalizeStr s).all (fun c => c != ' ') = true)
    ∧ normalizeStr ("S.1.2").toList = ("S1.2").toList
    ∧ normalizeStr (" S1.2 ").toList = ("S1.2").toList := by
  refine ⟨fun s => ?_, by decide, by decide⟩
  rw [List.all_eq_true]
  intro c hc
  exact normalizeStr_no_space s hc

/-! Order of the sorted sample list. -/

theorem lexLt_asymm : ∀ (a b : Str), lexLt a b = true → lexLt b a = false := by
  intro a
  induction a with
  | nil =>
    intro b h
    cases b with
    | nil => simp [lexLt] at h
    | cons c cs => rfl
  | cons x xs ih =>
    intro b h
    cases b with
    | nil => simp [lexLt] at h
    | cons y ys =>
      rw [lexLt] at h ⊢
      by_cases h1 : x.toNat < y.toNat
      · rw [if_neg (by omega), if_pos h1]
      · rw [if_neg h1] at h
        by_cases h2 : y.toNat < x.toNat
        · rw [if_pos h2] at h; exact absurd h (by simp)
        · rw [if_neg h2] at h
          rw [if_neg h2, if_neg h1]
          exact ih ys h

theorem lexLt_le_trans :
    ∀ (a b c : Str), lexLt b a = false → lexLt c b = false → lexLt c a = false := by
  intro a
  induction a with
  | nil =>
    intro b c _ _
    cases c <;> rfl
  | cons x xs ih =>
    intro b c h1 h2
    cases b with
    | nil => simp [lexLt] at h1
    | cons y ys =>
      cases c with
      | nil => simp [lexLt] at h2
      | cons z zs =>
        rw [lexLt] at h1 h2 ⊢
        by_cases hyx : y.toNat < x.toNat
        · rw [if_pos hyx] at h1; exact absurd h1 (by simp)
        · rw [if_neg hyx] at h1
          by_cases hzy : z.toNat < y.toNat
          · rw [if_pos hzy] at h2; exact absurd h2 (by simp)
          · rw [if_neg hzy] at h2
            by_cases hzx : z.toNat < x.toNat
            · omega
            · rw [if_neg hzx]
              by_cases hxz : x.toNat < z.toNat
              · rw [if_pos hxz]
              · rw [if_neg hxz]
                rw [if_neg (by omega : ¬ x.toNat < y.toNat)] at h1
                rw [if_neg (by omega : ¬ y.toNat < z.toNat)] at h2
                exact ih ys zs h1 h2

/-- The order `cube_samples` is kept in: non-decreasing `combined_id`
under Python string comparison. -/
def sampleLe (a b : Sample) : Prop := lexLt b.combined_id a.combined_id = false

instance : DecidableRel sampleLe := fun a b => by
  unfold sampleLe; infer_instance

theorem mem_insertSorted {x z : Sample} :
    ∀ {l : List Sample}, z ∈ insertSorted x l ↔ z = x ∨ z ∈ l := by
  intro l
  induction l with
  | nil => simp [insertSorted]
  | cons y ys ih =>
    rw [insertSorted]
    by_cases hc : lexLt y.combined_id x.combined_id = true
    · rw [if_pos hc]
      simp [ih]
      tauto
    · rw [if_neg hc]
      simp

theorem pairwise_insertSorted (x : Sample) :
    ∀ {l : List Sample}, l.Pairwise sampleLe → (insertSorted x l).Pairwise sampleLe := by
  intro l
  induction l with
  | nil => intro _; simp [insertSorted, List.pairwise_cons]
  | cons y ys ih =>
    intro h
    rw [List.pairwise_cons] at h
    obtain ⟨hy, hys⟩ := h
    rw [insertSorted]
    by_cases hc : lexLt y.combined_id x.combined_id = true
    · rw [if_pos hc, List.pairwise_cons]
      refine ⟨fun z hz => ?_, ih hys⟩
      rcases mem_insertSorted.mp hz with hzx | hzys
      · subst hzx
        exact lexLt_asymm _ _ hc
      · exact hy z hzys
    · rw [if_neg hc, List.pairwise_cons]
      have hxy : sampleLe x y := by
        unfold sampleLe
        exact Bool.not_eq_true _ ▸ eq_false_of_ne_true hc
      refine ⟨fun z hz => ?_, List.pairwise_cons.mpr ⟨hy, hys⟩⟩
      rcases List.mem_cons.mp hz with hzy | hzys
      · subst hzy; exact hxy
      · exact lexLt_le_trans _ _ _ hxy (hy z hzys)

theorem pairwise_sortSamples (l : List Sample) :
    (sortSamples l).Pairwise sampleLe := by
  induction l with
  | nil => simp [sortSamples]
  | cons x xs ih => exact pairwise_insertSorted x ih

theorem perm_insertSorted (x : Sample) :
    ∀ (l : List Sample), List.Perm (insertSorted x l) (x :: l) := by
  intro l
  induction l with
  | nil => rfl
  | cons y ys ih =>
    rw [insertSorted]
    by_cases hc : lexLt y.combined_id x.combined_id = true
    · rw [if_pos hc]
      exact (ih.cons y).trans (List.Perm.swap x y ys)
    · rw [if_neg hc]

theorem perm_sortSamples (l : List Sample) : List.Perm (sortSamples l) l := by
  induction l with
  | nil => rfl
  | cons x xs ih => exact (perm_insertSorted x (sortSamples xs)).trans (ih.cons x)

/-- Claim C6, counterexample: with FOVs 2 and 10 for one patient, the
by-patient listing follows lexicographic `combined_id` order
(`"1.2_10" < "1.2_2"`), so the FOV numbers come back as 10, 2 — not in
ascending integer order. -/
theorem c6_multi_digit_fov_not_numeric :
    (getSamplesByPatientId fovDs (("S1.2").toList)).map (fun s => s.fov)
      = [("10").toList, ("2").toList]
    ∧ ¬ ((getSamplesByPatientId fovDs (("S1.2").toList)).Pairwise
          (fun a b => natOfDigits a.fov ≤ natOfDigits b.fov)) := by
  constructor
  · decide
  · decide

/-- Claim C6 (amended): the built collection iterates in order sorted by
CompositeID under code-point string comparison, and the by-patient
listing preserves that same lexicographic order (which matches ascending
integer FOV order only when the FOV strings compare consistently, e.g.
for equal digit lengths). -/
theorem c6_iteration_order_amended :
    ∀ (dir : Str) (listing : Option (List Str)) (md : MetaTable) (pid : Str),
      ((HSIDataset.build dir listing md).cube_samples).Pairwise sampleLe
      ∧ (getSamplesByPatientId (HSIDataset.build dir listing md) pid).Pairwise
          sampleLe := by
  intro dir listing md pid
  have hmain : ((HSIDataset.build dir listing md).cube_samples).Pairwise sampleLe := by
    cases listing with
    | none => simp [HSIDataset.build]
    | some files => exact pairwise_sortSamples (findCubeSamples dir files md).1
  refine ⟨hmain, ?_⟩
  exact List.Pairwise.sublist (List.filter_sublist _) hmain

/-! The `combined_id → index` dictionary. -/

theorem lastIdxFrom_spec :
    ∀ (l : List Sample) (cid : Str) (k j : Nat),
      lastIdxFrom l cid k = some j →
      k ≤ j ∧ ∃ s, l[j - k]? = some s ∧ s.combined_id = cid := by
  intro l
  induction l with
  | nil => intro cid k j h; exact absurd h (by simp [lastIdxFrom])
  | cons a rest ih =>
    intro cid k j h
    rw [lastIdxFrom] at h
    cases hr : lastIdxFrom rest cid (k + 1) with
    | some j' =>
      rw [hr] at h
      have hj : j' = j := by simpa using h
      subst hj
      obtain ⟨hk, s, hget, hcid⟩ := ih cid (k + 1) j' hr
      refine ⟨by omega, s, ?_, hcid⟩
      have hsub : j' - k = (j' - (k + 1)) + 1 := by omega
      rw [hsub, List.getElem?_cons_succ]
      exact hget
    | none =>
      rw [hr] at h
      cases hb : a.combined_id == cid with
      | true =>
        rw [if_pos (by simp [hb])] at h
        have hk : k = j := by simpa using h
        subst hk
        exact ⟨le_rfl, a, by simp, by simpa using hb⟩
      | false =>
        rw [if_neg (by simp [hb])] at h
        exact absurd h (by simp)

theorem lastIdxFrom_isSome_of_mem :
    ∀ {l : List Sample} {s : Sample} {cid : Str}, s ∈ l → s.combined_id = cid →
      ∀ k, (lastIdxFrom l cid k).isSome = true := by
  intro l
  induction l with
  | nil => intro s cid h; exact absurd h (by simp)
  | cons a rest ih =>
    intro s cid hmem hcid k
    rw [lastIdxFrom]
    cases hr : lastIdxFrom rest cid (k + 1) with
    | some j => simp
    | none =>
      rcases List.mem_cons.mp hmem with heq | htail
      · subst heq
        rw [if_pos (by simp [hcid])]
        simp
      · have := ih htail hcid (k + 1)
        rw [hr] at this
        exact absurd this (by simp)

theorem lastIdxFrom_none_of_all :
    ∀ {l : List Sample} {cid : Str}, (∀ s ∈ l, s.combined_id ≠ cid) →
      ∀ k, lastIdxFrom l cid k = none := by
  intro l
  induction l with
  | nil => intro cid _ k; rfl
  | cons a rest ih =>
    intro cid h k
    rw [lastIdxFrom, ih (fun s hs => h s (List.mem_cons_of_mem a hs)) (k + 1)]
    rw [if_neg]
    simp [h a (by simp)]

/-- Claim C8: `__getitem__` raises `IndexError` (an out-of-range condition) for
every index outside `[0, len)`, and `get_sample_by_combined_id` on an id
carried by no sample returns `None` (explicit absence) rather than
raising. -/
theorem c8_out_of_range_and_absent_key :
    (∀ (ds : HSIDataset) (idx : Int),
        idx < 0 ∨ (ds.cube_samples.length : Int) ≤ idx →
        getItem ds idx = Except.error ())
    ∧ (∀ (ds : HSIDataset) (cid : Str),
        (∀ s ∈ ds.cube_samples, s.combined_id ≠ cid) →
        getSampleByCombinedId ds cid = none) := by
  constructor
  · intro ds idx h
    unfold getItem
    rw [if_pos h]
  · intro ds cid h
    unfold getSampleByCombinedId sampleMapLookup
    rw [lastIdxFrom_none_of_all h 0]
    rfl

/-- Claim C8, witness: the §8 collection at index 5, index -1, and the key
`"does-not-exist"`. -/
theorem c8_out_of_range_and_absent_key_witness :
    getItem demoDs 5 = Except.error ()
    ∧ getItem demoDs (-1) = Except.error ()
    ∧ getSampleByCombinedId demoDs ("does-not-exist").toList = none :=
  ⟨c8_out_of_range_and_absent_key.1 demoDs 5 (by decide),
   c8_out_of_range_and_absent_key.1 demoDs (-1) (by decide),
   c8_out_of_range_and_absent_key.2 demoDs (("does-not-exist").toList) (by decide)⟩

/-- Claim C5: at the failing input (a base cube plus its `_BIS` duplicate, both
normalizing to CompositeID `1.2_1`), the build keeps both samples, records
no conflict (no warning), and the `combined_id → index` dictionary silently
maps the key to the later file — last-write-wins, surfaced nowhere. -/
theorem c5_collision_silent_last_write_wins :
    bisDs.cube_samples = [bisS0, bisS1]
    ∧ bisS0.combined_id = bisS1.combined_id
    ∧ bisS0.file_path ≠ bisS1.file_path
    ∧ sampleMapLookup bisDs.cube_samples (("1.2_1").toList) = some 1
    ∧ getSampleByCombinedId bisDs (("1.2_1").toList) = some bisS1
    ∧ bisDs.warnings = [] := by decide

theorem findCubeSamples_length (dir : Str) (md : MetaTable) :
    ∀ (files : List Str),
      (findCubeSamples dir files md).1.length
        = files.countP
            (fun f => ((parseFilename f).bind
              (fun p => mdLookup md (pyStrip p.1))).isSome) := by
  intro files
  induction files with
  | nil => rfl
  | cons f rest ih =>
    rw [List.countP_cons, findCubeSamples]
    cases hp : parseFilename f with
    | none => simp [hp, ih]
    | some p =>
      obtain ⟨raw, fovOpt⟩ := p
      cases hm : mdLookup md (pyStrip raw) with
      | none => simp [hp, hm, ih]
      | some r => simp [hp, hm, ih]

/-- Claim C10: every matched file is appended to the sample sequence, duplicates
included (the length equals the count of regex-matching files with a
metadata row); the dictionary holds one index per distinct CompositeID,
so its key count is at most the collection length; and when two samples
share a CompositeID, some valid index is returned by no combined-id
lookup. -/
theorem c10_duplicates_shadowed_in_map :
    (∀ (dir : Str) (files : List Str) (md : MetaTable),
      (HSIDataset.build dir (some files) md).cube_samples.length
        = files.countP
            (fun f => ((parseFilename f).bind
              (fun p => mdLookup md (pyStrip p.1))).isSome))
    ∧ (∀ l : List Sample,
        ((l.map (fun s => s.combined_id)).dedup).length ≤ l.length)
    ∧ (∀ (l : List Sample) (i j : Nat) (si sj : Sample),
        i ≠ j → l[i]? = some si → l[j]? = some sj →
        si.combined_id = sj.combined_id →
        ∃ m, m < l.length ∧ ∀ c, sampleMapLookup l c ≠ some m) := by
  refine ⟨?_, ?_, ?_⟩
  · intro dir files md
    show (sortSamples (findCubeSamples dir files md).1).length = _
    rw [(perm_sortSamples (findCubeSamples dir files md).1).length_eq]
    exact findCubeSamples_length dir md files
  · intro l
    calc ((l.map (fun s => s.combined_id)).dedup).length
        ≤ (l.map (fun s => s.combined_id)).length :=
          (List.dedup_sublist _).length_le
      _ = l.length := List.length_map _ _
  · intro l i j si sj hij hi hj hcid
    have hsi : si ∈ l := List.getElem?_mem hi
    have hsome := lastIdxFrom_isSome_of_mem hsi rfl 0
    obtain ⟨k, hk⟩ := Option.isSome_iff_exists.mp hsome
    have hilt : i < l.length := by
      rcases List.getElem?_eq_some.mp hi with ⟨h, _⟩; exact h
    have hjlt : j < l.length := by
      rcases List.getElem?_eq_some.mp hj with ⟨h, _⟩; exact h
    refine ⟨if k = i then j else i, ?_, ?_⟩
    · split <;> assumption
    · intro c hcm
      obtain ⟨-, s', hs'get, hs'cid⟩ :=
        lastIdxFrom_spec l c 0 (if k = i then j else i) hcm
      rw [Nat.sub_zero] at hs'get
      have hmk : ¬ (if k = i then j else i) = k := by
        split
        · omega
        · omega
      have hcsi : c = si.combined_id := by
        by_cases hki : k = i
        · rw [if_pos hki] at hs'get
          rw [hj] at hs'get
          have hssj : sj = s' := by simpa using hs'get
          rw [← hs'cid, ← hssj, ← hcid]
        · rw [if_neg hki] at hs'get
          rw [hi] at hs'get
          have hssi : si = s' := by simpa using hs'get
          rw [← hs'cid, ← hssi]
      rw [hcsi] at hcm
      unfold sampleMapLookup at hcm
      rw [hk] at hcm
      have : k = (if k = i then j else i) := by simpa using hcm
      exact hmk this.symm

/-- Claim C10, witness: in the `_BIS` collision collection, both samples share
CompositeID `1.2_1` and index 0 is returned by no lookup. -/
theorem c10_duplicates_shadowed_in_map_witness :
    ∃ m, m < bisDs.cube_samples.length
      ∧ ∀ c, sampleMapLookup bisDs.cube_samples c ≠ some m :=
  c10_duplicates_shadowed_in_map.2.2 bisDs.cube_samples 0 1 bisS0 bisS1
    (by decide) (by decide) (by decide) (by decide)

/-! Per-file accounting of the directory scan. -/

theorem joinPath_inj {dir a b : Str} (h : joinPath dir a = joinPath dir b) :
    a = b := by
  unfold joinPath at h
  by_cases hd : dir = []
  · rw [if_pos hd, if_pos hd] at h; exact h
  · rw [if_neg hd, if_neg hd] at h
    by_cases hl : dir.getLast? = some '/'
    · rw [if_pos hl, if_pos hl] at h
      exact List.append_cancel_left h
    · rw [if_neg hl, if_neg hl] at h
      have h2 := List.append_cancel_left h
      simpa using h2

theorem findCubeSamples_mem (dir : Str) (md : MetaTable) :
    ∀ {files : List Str} {s : Sample},
      s ∈ (findCubeSamples dir files md).1 →
      ∃ g ∈ files, ∃ raw fovOpt r,
        parseFilename g = some (raw, fovOpt)
        ∧ mdLookup md (pyStrip raw) = some r
        ∧ s = mkSample dir g raw fovOpt r := by
  intro files
  induction files with
  | nil => intro s hs; exact absurd hs (by simp [findCubeSamples])
  | cons g rest ih =>
    intro s hs
    cases hp : parseFilename g with
    | none =>
      simp only [findCubeSamples, hp] at hs
      obtain ⟨g', hg', rest'⟩ := ih hs
      exact ⟨g', List.mem_cons_of_mem g hg', rest'⟩
    | some p =>
      obtain ⟨raw, fovOpt⟩ := p
      cases hm : mdLookup md (pyStrip raw) with
      | none =>
        simp only [findCubeSamples, hp, hm] at hs
        obtain ⟨g', hg', rest'⟩ := ih hs
        exact ⟨g', List.mem_cons_of_mem g hg', rest'⟩
      | some r =>
        simp only [findCubeSamples, hp, hm] at hs
        rcases List.mem_cons.mp hs with heq | htail
        · exact ⟨g, by simp, raw, fovOpt, r, hp, hm, heq⟩
        · obtain ⟨g', hg', rest'⟩ := ih htail
          exact ⟨g', List.mem_cons_of_mem g hg', rest'⟩

theorem findCubeSamples_countP_zero (dir : Str) (md : MetaTable) {f : Str}
    {files : List Str} (hf : f ∉ files) :
    (findCubeSamples dir files md).1.countP
      (fun s => s.file_path == joinPath dir f) = 0 := by
  rw [List.countP_eq_zero]
  intro s hs
  obtain ⟨g, hg, raw, fovOpt, r, hp, hm, hsval⟩ := findCubeSamples_mem dir md hs
  subst hsval
  simp only [mkSample, beq_iff_eq]
  intro heq
  exact hf (joinPath_inj heq ▸ hg)

theorem findCubeSamples_countP_path (dir : Str) (md : MetaTable) :
    ∀ {files : List Str} {f raw : Str} {fovOpt : Option Str},
      files.Nodup → f ∈ files → parseFilename f = some (raw, fovOpt) →
      (findCubeSamples dir files md).1.countP
          (fun s => s.file_path == joinPath dir f)
        = if (mdLookup md (pyStrip raw)).isSome then 1 else 0 := by
  intro files
  induction files with
  | nil =>
    intro f raw fovOpt _ hmem
    exact absurd hmem (by simp)
  | cons g rest ih =>
    intro f raw fovOpt hnd hmem hp
    rw [List.nodup_cons] at hnd
    obtain ⟨hgnotin, hndrest⟩ := hnd
    rcases List.mem_cons.mp hmem with heq | htail
    · subst heq
      cases hm : mdLookup md (pyStrip raw) with
      | some r =>
        simp only [findCubeSamples, hp, hm]
        rw [List.countP_cons, findCubeSamples_countP_zero dir md hgnotin]
        simp [mkSample]
      | none =>
        simp only [findCubeSamples, hp, hm]
        rw [findCubeSamples_countP_zero dir md hgnotin]
        simp
    · have hfg : f ≠ g := fun h => hgnotin (h ▸ htail)
      have hrec := ih hndrest htail hp
      cases hpg : parseFilename g with
      | none =>
        simp only [findCubeSamples, hpg]
        exact hrec
      | some pg =>
        obtain ⟨rawg, fovg⟩ := pg
        cases hmg : mdLookup md (pyStrip rawg) with
        | some rg =>
          simp only [findCubeSamples, hpg, hmg]
          rw [List.countP_cons, hrec]
          have hpred :
              ((mkSample dir g rawg fovg rg).file_path == joinPath dir f) = false := by
            simp only [mkSample, beq_eq_false_iff_ne, ne_eq]
            intro heq
            exact hfg (joinPath_inj heq).symm
          rw [hpred]
          simp
        | none =>
          simp only [findCubeSamples, hpg, hmg]
          exact hrec

theorem findCubeSamples_warn (dir : Str) (md : MetaTable) :
    ∀ {files : List Str} {f raw : Str} {fovOpt : Option Str},
      f ∈ files → parseFilename f = some (raw, fovOpt) →
      mdLookup md (pyStrip raw) = none →
      f ∈ (findCubeSamples dir files md).2 := by
  intro files
  induction files with
  | nil => intro f raw fovOpt h; exact absurd h (by simp)
  | cons g rest ih =>
    intro f raw fovOpt hmem hp hm
    rcases List.mem_cons.mp hmem with heq | htail
    · subst heq
      simp only [findCubeSamples, hp, hm]
      simp
    · have hrec := ih htail hp hm
      cases hpg : parseFilename g with
      | none => simpa only [findCubeSamples, hpg] using hrec
      | some pg =>
        obtain ⟨rawg, fovg⟩ := pg
        cases hmg : mdLookup md (pyStrip rawg) with
        | some rg => simpa only [findCubeSamples, hpg, hmg] using hrec
        | none =>
          simp only [findCubeSamples, hpg, hmg]
          exact List.mem_cons_of_mem g hrec

theorem findCubeSamples_path_unique (dir : Str) (md : MetaTable)
    {files : List Str} {f raw : Str} {fovOpt : Option Str} {r : MetaRecord}
    {s : Sample}
    (hp : parseFilename f = some (raw, fovOpt))
    (hm : mdLookup md (pyStrip raw) = some r)
    (hs : s ∈ (findCubeSamples dir files md).1)
    (hpath : s.file_path = joinPath dir f) :
    s = mkSample dir f raw fovOpt r := by
  obtain ⟨g, hg, raw', fovOpt', r', hp', hm', hsval⟩ := findCubeSamples_mem dir md hs
  have hgf : g = f := by
    apply joinPath_inj (a := g) (b := f)
    rw [← hpath, hsval]
    rfl
  subst hgf
  rw [hp'] at hp
  obtain ⟨hraw, hfov⟩ : raw' = raw ∧ fovOpt' = fovOpt := by
    constructor <;> [skip; skip] <;> cases hp <;> rfl
  subst hraw; subst hfov
  rw [hm'] at hm
  cases hm
  exact hsval

/-- Claim C1: under the per-cube policy, a regex-matching file whose normalized
id has no metadata row contributes no sample (and is warned about), and a
matching file with a metadata row contributes exactly one sample whose
CompositeID is `<patient-number>_<fov>` with fov defaulting to `"1"`; in
the §8 scenario the collection is exactly `["1.2_1", "1.2_2"]` with one
warning for the unmatched `S9.9` file. -/
theorem c1_scan_matching_and_exclusion :
    (∀ (dir : Str) (files : List Str) (md : MetaTable) (f raw : Str)
        (fovOpt : Option Str),
      files.Nodup → f ∈ files → parseFilename f = some (raw, fovOpt) →
      (mdLookup md (pyStrip raw) = none →
        (HSIDataset.build dir (some files) md).cube_samples.countP
            (fun s => s.file_path == joinPath dir f) = 0
        ∧ f ∈ (HSIDataset.build dir (some files) md).warnings)
      ∧ (∀ r, mdLookup md (pyStrip raw) = some r →
          (HSIDataset.build dir (some files) md).cube_samples.countP
              (fun s => s.file_path == joinPath dir f) = 1
          ∧ ∀ s ∈ (HSIDataset.build dir (some files) md).cube_samples,
              s.file_path = joinPath dir f →
              s.combined_id
                  = extractPatientNumber (pyStrip raw) ++ '_' :: fovOpt.getD ['1']
              ∧ s.metadata = r))
    ∧ demoDs.cube_samples.map (fun s => s.combined_id)
        = [("1.2_1").toList, ("1.2_2").toList]
    ∧ demoDs.warnings = [("HyperProbe1.1_Biopsy_S9.9.mat").toList] := by
  refine ⟨?_, by decide, by decide⟩
  intro dir files md f raw fovOpt hnd hmem hp
  have hcount := findCubeSamples_countP_path dir md hnd hmem hp
  have hbuild : (HSIDataset.build dir (some files) md).cube_samples
      = sortSamples (findCubeSamples dir files md).1 := rfl
  constructor
  · intro hm
    constructor
    · rw [hbuild, (perm_sortSamples _).countP_eq, hcount, hm]
      simp
    · exact findCubeSamples_warn dir md hmem hp hm
  · intro r hm
    constructor
    · rw [hbuild, (perm_sortSamples _).countP_eq, hcount, hm]
      simp
    · intro s hs hpath
      have hs' : s ∈ (findCubeSamples dir files md).1 := by
        rw [hbuild] at hs
        exact (perm_sortSamples _).mem_iff.mp hs
      have hval := findCubeSamples_path_unique dir md hp hm hs' hpath
      rw [hval]
      exact ⟨rfl, rfl⟩

/-- Claim C1, witness: the §8 scenario — the metadata-less `S9.9` file is
excluded with a warning; the matched `FOV2` file contributes exactly one
sample. -/
theorem c1_scan_matching_and_exclusion_witness :
    (demoDs.cube_samples.countP
        (fun s => s.file_path
          == joinPath (("d").toList) (("HyperProbe1.1_Biopsy_S9.9.mat").toList)) = 0
      ∧ ("HyperProbe1.1_Biopsy_S9.9.mat").toList ∈ demoDs.warnings)
    ∧ demoDs.cube_samples.countP
        (fun s => s.file_path
          == joinPath (("d").toList)
              (("HyperProbe1.1_Biopsy_S1.2_FOV2.mat").toList)) = 1 := by
  constructor
  · exact (c1_scan_matching_and_exclusion.1 (("d").toList) demoFiles demoMd
      (("HyperProbe1.1_Biopsy_S9.9.mat").toList) (("S9.9").toList) none
      (by decide) (by decide) (by decide)).1 (by decide)
  · exact ((c1_scan_matching_and_exclusion.1 (("d").toList) demoFiles demoMd
      (("HyperProbe1.1_Biopsy_S1.2_FOV2.mat").toList) (("S1.2").toList)
      (some (("2").toList))
      (by decide) (by decide) (by decide)).2
      [(("type").toList, ("Glioma").toList)] (by decide)).1

/-! Shape of the identifier captured by the filename regex. -/

theorem parseTail_raw_fov {raw rest : Str} {fovOpt : Option Str}
    {p : Str × Option Str} (h : parseTail raw fovOpt rest = some p) :
    p = (raw, fovOpt) := by
  unfold parseTail at h
  split at h
  · split at h
    · exact (Option.some_inj.mp h).symm
    · exact absurd h (by simp)
  · split at h
    · exact (Option.some_inj.mp h).symm
    · exact absurd h (by simp)

theorem parseAfterId_raw {raw rest : Str} {p : Str × Option Str}
    (h : parseAfterId raw rest = some p) : p.1 = raw := by
  unfold parseAfterId at h
  split at h
  · split at h
    · rw [parseTail_raw_fov h]
    · rw [parseTail_raw_fov h]
  · rw [parseTail_raw_fov h]

theorem parseFilename_shape {f raw : Str} {fovOpt : Option Str}
    (h : parseFilename f = some (raw, fovOpt)) :
    ∃ d1 d2, raw = 'S' :: d1 ++ '.' :: d2 ∧ d1 ≠ [] ∧ d2 ≠ []
      ∧ (∀ c ∈ d1, c.isDigit = true) ∧ (∀ c ∈ d2, c.isDigit = true) := by
  unfold parseFilename at h
  split at h
  · exact absurd h (by simp)
  · rename_i r1 hr1
    split at h
    · exact absurd h (by simp)
    · rename_i hne1
      split at h
      · exact absurd h (by simp)
      · rename_i r3 hr3
        split at h
        · exact absurd h (by simp)
        · rename_i hne2
          have hraw := parseAfterId_raw h
          refine ⟨(r1.span Char.isDigit).1, (r3.span Char.isDigit).1,
            hraw, hne1, hne2, ?_, ?_⟩
          · intro c hc
            rw [List.span_eq_take_drop] at hc
            exact List.mem_takeWhile_imp hc
          · intro c hc
            rw [List.span_eq_take_drop] at hc
            exact List.mem_takeWhile_imp hc

theorem pySpace_eq_false_of_isDigit (c : Char) (h : c.isDigit = true) :
    pySpace c = false := by
  cases hp : pySpace c with
  | false => rfl
  | true =>
    exfalso
    have hc : c = ' ' ∨ c = '\t' ∨ c = '\n' ∨ c = '\r'
        ∨ c = Char.ofNat 11 ∨ c = Char.ofNat 12 := by
      simpa [pySpace, or_assoc] using hp
    rcases hc with h1 | h1 | h1 | h1 | h1 | h1 <;> subst h1 <;>
      exact absurd h (by decide)

theorem parseFilename_patient_id {f raw : Str} {fovOpt : Option Str}
    (h : parseFilename f = some (raw, fovOpt)) :
    pyStrip raw = raw ∧ normalizeStr raw = raw := by
  obtain ⟨d1, d2, hshape, hd1ne, hd2ne, hd1dig, hd2dig⟩ := parseFilename_shape h
  have hmem : ∀ c ∈ raw, c = 'S' ∨ c = '.' ∨ c.isDigit = true := by
    intro c hc
    rw [hshape] at hc
    rcases List.mem_cons.mp hc with h1 | h2
    · exact Or.inl h1
    rcases List.mem_append.mp h2 with h3 | h4
    · exact Or.inr (Or.inr (hd1dig c h3))
    rcases List.mem_cons.mp h4 with h5 | h6
    · exact Or.inr (Or.inl h5)
    · exact Or.inr (Or.inr (hd2dig c h6))
  have hnospace : ∀ c ∈ raw, pySpace c = false := by
    intro c hc
    rcases hmem c hc with h1 | h1 | h1
    · subst h1; decide
    · subst h1; decide
    · exact pySpace_eq_false_of_isDigit c h1
  refine ⟨pyStrip_eq_self_of_all hnospace, normalizeStr_eq_self_of hnospace ?_⟩
  have hnoS : ∀ x ∈ d1 ++ '.' :: d2, x ≠ 'S' := by
    intro x hx heq
    rcases List.mem_append.mp hx with h3 | h4
    · exact absurd (heq ▸ hd1dig x h3) (by decide)
    · rcases List.mem_cons.mp h4 with h5 | h6
      · rw [heq] at h5
        exact absurd h5 (by decide)
      · exact absurd (heq ▸ hd2dig x h6) (by decide)
  obtain ⟨c1, d1t, hd1⟩ : ∃ c1 d1t, d1 = c1 :: d1t := by
    cases d1 with
    | nil => exact absurd rfl hd1ne
    | cons a b => exact ⟨a, b, rfl⟩
  have hc1dig := hd1dig c1 (by simp [hd1])
  subst hd1
  rw [hshape]
  show hasSdot ('S' :: c1 :: (d1t ++ '.' :: d2)) = false
  rw [hasSdot, if_neg]
  · exact hasSdot_of_no_S (fun x hx => hnoS x hx)
  · rintro ⟨-, hdot⟩
    exact absurd (hdot ▸ hc1dig) (by decide)

/-- Every sample of a built collection carries an already-canonical
patient id, and its CompositeID is `<patient-number>_<fov>`. -/
theorem build_sample_invariant {dir : Str} {listing : Option (List Str)}
    {md : MetaTable} {s : Sample}
    (hs : s ∈ (HSIDataset.build dir listing md).cube_samples) :
    normalizeStr s.patient_id = s.patient_id
    ∧ s.combined_id = extractPatientNumber s.patient_id ++ '_' :: s.fov := by
  cases listing with
  | none => simp [HSIDataset.build] at hs
  | some files =>
    have hs' : s ∈ (findCubeSamples dir files md).1 :=
      (perm_sortSamples _).mem_iff.mp hs
    obtain ⟨g, hg, raw, fovOpt, r, hp, hm, hsval⟩ := findCubeSamples_mem dir md hs'
    obtain ⟨hstrip, hnorm⟩ := parseFilename_patient_id hp
    subst hsval
    constructor
    · show normalizeStr (pyStrip raw) = pyStrip raw
      rw [hstrip, hnorm]
    · rfl

theorem getByCid_unique {ds : HSIDataset} {s : Sample}
    (hs : s ∈ ds.cube_samples)
    (hcount : ds.cube_samples.countP
      (fun t => t.combined_id == s.combined_id) = 1) :
    getSampleByCombinedId ds s.combined_id = some s := by
  have hsome := lastIdxFrom_isSome_of_mem hs rfl 0
  obtain ⟨k, hk⟩ := Option.isSome_iff_exists.mp hsome
  obtain ⟨-, s', hget, hcid'⟩ := lastIdxFrom_spec _ _ 0 k hk
  rw [Nat.sub_zero] at hget
  rw [List.countP_eq_length_filter] at hcount
  obtain ⟨x, hx⟩ := List.length_eq_one.mp hcount
  have hsx : s = x := by
    have hmem : s ∈ ds.cube_samples.filter
        (fun t => t.combined_id == s.combined_id) :=
      List.mem_filter.mpr ⟨hs, by simp⟩
    rw [hx] at hmem
    simpa using hmem
  have hs'x : s' = x := by
    have hmem0 : s' ∈ ds.cube_samples := List.getElem?_mem hget
    have hmem : s' ∈ ds.cube_samples.filter
        (fun t => t.combined_id == s.combined_id) :=
      List.mem_filter.mpr ⟨hmem0, by simp [hcid']⟩
    rw [hx] at hmem
    simpa using hmem
  unfold getSampleByCombinedId sampleMapLookup
  rw [hk]
  show ds.cube_samples[k]? = some s
  rw [hget, hs'x, hsx]

/-- Claim C4, counterexample: with the `_BIS` collision, the first sample of
the collection is not returned by `byPatientAndFov` on its own patient
id and FOV — the lookup map points at the later duplicate. -/
theorem c4_roundtrip_fails_on_collision :
    bisS0 ∈ bisDs.cube_samples
    ∧ getSampleByPatientAndFov bisDs bisS0.patient_id bisS0.fov = some bisS1
    ∧ bisS1 ≠ bisS0 := by decide

/-- Claim C4 (amended): for every sample of a built collection whose
CompositeID is unique in the collection,
`byPatientAndFov(sample.patientId, sample.fov)` returns that same
sample. -/
theorem c4_roundtrip_amended :
    ∀ (dir : Str) (listing : Option (List Str)) (md : MetaTable) (s : Sample),
      s ∈ (HSIDataset.build dir listing md).cube_samples →
      (HSIDataset.build dir listing md).cube_samples.countP
          (fun t => t.combined_id == s.combined_id) = 1 →
      getSampleByPatientAndFov (HSIDataset.build dir listing md)
          s.patient_id s.fov = some s := by
  intro dir listing md s hs hcount
  obtain ⟨hnorm, hcid⟩ := build_sample_invariant hs
  unfold getSampleByPatientAndFov
  rw [hnorm, ← hcid]
  exact getByCid_unique hs hcount

/-- The FOV-2 sample of the §8 scenario. -/
def demoS2 : Sample :=
  { combined_id := ("1.2_2").toList
    patient_id := ("S1.2").toList
    fov := ("2").toList
    file_path := ("d/HyperProbe1.1_Biopsy_S1.2_FOV2.mat").toList
    metadata := [(("type").toList, ("Glioma").toList)] }

/-- Claim C4, witness: the round trip at the §8 FOV-2 sample. -/
theorem c4_roundtrip_amended_witness :
    getSampleByPatientAndFov demoDs demoS2.patient_id demoS2.fov = some demoS2 :=
  c4_roundtrip_amended (("d").toList) (some demoFiles) demoMd demoS2
    (by decide) (by decide)

/-! Degradation of missing configuration (C7). -/

theorem findCubeSamples_empty_md (dir : Str) :
    ∀ files : List Str,
      (findCubeSamples dir files []).1 = []
      ∧ (findCubeSamples dir files []).2
          = files.filter (fun f => (parseFilename f).isSome) := by
  intro files
  induction files with
  | nil => exact ⟨rfl, rfl⟩
  | cons f rest ih =>
    cases hp : parseFilename f with
    | none =>
      simp [findCubeSamples, hp, ih.1, ih.2, List.filter_cons]
    | some p =>
      obtain ⟨raw, fovOpt⟩ := p
      have hm : mdLookup [] (pyStrip raw) = none := rfl
      simp [findCubeSamples, hp, hm, ih.1, ih.2, List.filter_cons]

/-- Claim C7, counterexample: over the empty (degraded) metadata table, a
non-empty directory whose single file does not match the filename
template produces zero samples but also zero warnings — not "one warning
per file" (non-matching files are skipped silently). -/
theorem c7_no_warning_for_unmatched_file :
    (HSIDataset.build (("d").toList) (some [("foo.txt").toList]) []).cube_samples = []
    ∧ (HSIDataset.build (("d").toList) (some [("foo.txt").toList]) []).warnings = []
    ∧ ¬ ((HSIDataset.build (("d").toList)
          (some [("foo.txt").toList]) []).warnings.length
        = [("foo.txt").toList].length) := by decide

/-- Claim C7 (amended): a missing or unparseable metadata table degrades to the
empty table, under which indexing any directory yields zero samples with
one warning per template-matching file (files that do not match the
template are skipped without a warning); a non-existent cube directory
yields an empty collection; construction always completes, only
recording warnings. -/
theorem c7_degraded_construction_amended :
    (∀ (dir : Str) (files : List Str),
      (HSIDataset.build dir (some files) []).cube_samples = []
      ∧ (HSIDataset.build dir (some files) []).warnings.length
          = files.countP (fun f => (parseFilename f).isSome))
    ∧ (∀ (dir : Str) (md : MetaTable),
      (HSIDataset.build dir none md).cube_samples = []
      ∧ (HSIDataset.build dir none md).warnings = []) := by
  constructor
  · intro dir files
    obtain ⟨h1, h2⟩ := findCubeSamples_empty_md dir files
    constructor
    · show sortSamples (findCubeSamples dir files []).1 = []
      rw [h1]
      rfl
    · show (findCubeSamples dir files []).2.length = _
      rw [h2]
      exact (List.countP_eq_length_filter _ _).symm
  · intro dir md
    exact ⟨rfl, rfl⟩

/-! The cube loader (C9). -/

/-- Claim C9, counterexample: a legacy container holding a single
(non-internal) array field named `cube` — the spec's heuristic locates
that array, but the code's loader reads only the fixed field
`"Ref_hyper"` and reports a load failure. -/
theorem c9_no_legacy_heuristic :
    loadHsiCube [((("legacy.mat").toList),
        CubeFile.hdf5 [(("cube").toList, NDArr.mk [3, 4, 5] 7)])]
      (("legacy.mat").toList) = none
    ∧ specLocateLegacy [(("cube").toList, NDArr.mk [3, 4, 5] 7)]
        = some (NDArr.mk [3, 4, 5] 7) := by decide

/-- Claim C9 (amended): the loader supports only the structured container with
the fixed field name `"Ref_hyper"`; a missing file, an unreadable
container, or an absent field yields an explicit load failure (`none`)
for that access rather than raising, and no heuristic field search is
performed. -/
theorem c9_fixed_field_loader_amended :
    ∀ (fs : FileSystem) (path : Str),
      (fsFind fs path = none → loadHsiCube fs path = none)
      ∧ (fsFind fs path = some CubeFile.corrupt → loadHsiCube fs path = none)
      ∧ (∀ fields, fsFind fs path = some (CubeFile.hdf5 fields) →
          loadHsiCube fs path
            = (fields.find? (fun q => q.1 == ("Ref_hyper").toList)).map
                (fun q => q.2)) := by
  intro fs path
  refine ⟨?_, ?_, ?_⟩
  · intro h
    unfold loadHsiCube
    rw [h]
  · intro h
    unfold loadHsiCube
    rw [h]
  · intro fields h
    unfold loadHsiCube
    rw [h]

def demoFs : FileSystem :=
  [((("s.mat").toList),
      CubeFile.hdf5 [(("Ref_hyper").toList, NDArr.mk [3, 4, 5] 1)]),
   ((("bad.mat").toList), CubeFile.corrupt)]

/-- Claim C9, witness: a structured file loads its fixed field; a corrupt file
and a missing path load to an explicit failure. -/
theorem c9_fixed_field_loader_witness :
    loadHsiCube demoFs (("s.mat").toList) = some (NDArr.mk [3, 4, 5] 1)
    ∧ loadHsiCube demoFs (("bad.mat").toList) = none
    ∧ loadHsiCube demoFs (("missing.mat").toList) = none := by
  refine ⟨?_, ?_, ?_⟩
  · rw [(c9_fixed_field_loader_amended demoFs (("s.mat").toList)).2.2
        [(("Ref_hyper").toList, NDArr.mk [3, 4, 5] 1)] (by decide)]
    decide
  · exact (c9_fixed_field_loader_amended demoFs
      (("bad.mat").toList)).2.1 (by decide)
  · exact (c9_fixed_field_loader_amended demoFs
      (("missing.mat").toList)).1 (by decide)
